import Mathlib

/-!
Verification of the round-lifecycle core of a multiplayer word game
("Państwa-Miasta").  The server keeps rooms, players, rounds, answers and
answer votes in a relational store; the definitions below are a shallow
embedding of the storage layer (`DatabaseStorage`) and of the route-level
game logic (`finishRoundLogic`, `startNewRound`, `validateRound`,
`applyFallbackValidation`, the submit / nextRound / updateCategories
handlers) as pure functions over an explicit database state.  External
effects (the random letter draw, clock timestamps, serial primary keys,
and the external AI judge) enter as explicit parameters.
-/

namespace PanstwaMiasta

/-- A row of the `rooms` table (shared/schema.ts). -/
structure Room where
  id : Nat
  code : String
  status : String
  roundNumber : Nat
  totalRounds : Nat
  timerDuration : Option Nat
  categories : List String
  usedLetters : List String
  deriving Repr, DecidableEq

/-- A row of the `players` table. -/
structure Player where
  id : Nat
  roomId : Nat
  name : String
  score : Nat
  isHost : Bool
  deriving Repr, DecidableEq

/-- A row of the `rounds` table. -/
structure Round where
  id : Nat
  roomId : Nat
  letter : String
  status : String
  firstSubmissionAt : Option Nat
  startedAt : Nat
  endedAt : Option Nat
  deriving Repr, DecidableEq

/-- A row of the `answers` table (including the `community_rejected`
column added by the answer-votes migration). -/
structure Answer where
  id : Nat
  roundId : Nat
  playerId : Nat
  category : String
  word : String
  isValid : Option Bool
  points : Nat
  validationReason : Option String
  communityRejected : Bool
  deriving Repr, DecidableEq

/-- A row of the `answer_votes` table. -/
structure AnswerVote where
  id : Nat
  answerId : Nat
  playerId : Nat
  accepted : Bool
  deriving Repr, DecidableEq

/-- The relational store consumed by `DatabaseStorage`. -/
structure DB where
  rooms : List Room
  players : List Player
  rounds : List Round
  answers : List Answer
  answerVotes : List AnswerVote
  deriving Repr, DecidableEq

/-! ## String primitives

Executable models of the JavaScript string methods the game logic uses
(`toLowerCase`, `trim`, `startsWith`, `length`), defined by structural
recursion over the character list so that concrete states evaluate inside
the kernel. -/

/-- Model of `String.prototype.toLowerCase`. -/
def strLower (s : String) : String :=
  String.mk (s.data.map Char.toLower)

/-- Model of `String.prototype.trim`: drop leading and trailing
whitespace. -/
def strTrim (s : String) : String :=
  String.mk (((s.data.dropWhile Char.isWhitespace).reverse.dropWhile
    Char.isWhitespace).reverse)

/-- Model of `String.prototype.startsWith`. -/
def strStartsWith (s pre : String) : Bool :=
  pre.data.isPrefixOf s.data

/-- Model of `String.prototype.length`. -/
def strLength (s : String) : Nat :=
  s.data.length

/-! ## Storage operations (`DatabaseStorage` in server/routes.ts) -/

/-- `getRoom(code)`: select from rooms where code matches. -/
def getRoom (db : DB) (code : String) : Option Room :=
  db.rooms.find? (fun r => decide (r.code = code))

/-- `getRoomById(id)`. -/
def getRoomById (db : DB) (id : Nat) : Option Room :=
  db.rooms.find? (fun r => decide (r.id = id))

/-- `updateRoomStatus(id, status)`. -/
def updateRoomStatus (db : DB) (id : Nat) (status : String) : DB :=
  { db with rooms := db.rooms.map (fun r =>
      if r.id = id then { r with status := status } else r) }

/-- `updateRoomRound(id, roundNumber)`: the storage layer also forces the
room status to "playing" in the same update. -/
def updateRoomRound (db : DB) (id : Nat) (roundNumber : Nat) : DB :=
  { db with rooms := db.rooms.map (fun r =>
      if r.id = id then { r with roundNumber := roundNumber, status := "playing" } else r) }

/-- `updateRoomCategories(id, categories)`. -/
def updateRoomCategories (db : DB) (id : Nat) (categories : List String) : DB :=
  { db with rooms := db.rooms.map (fun r =>
      if r.id = id then { r with categories := categories } else r) }

/-- `updateRoomSettings(id, settings)`: partial update of totalRounds and
timerDuration (absent fields untouched). -/
def updateRoomSettings (db : DB) (id : Nat)
    (totalRounds : Option Nat) (timerDuration : Option (Option Nat)) : DB :=
  { db with rooms := db.rooms.map (fun r =>
      if r.id = id then
        { r with totalRounds := totalRounds.getD r.totalRounds,
                 timerDuration := timerDuration.getD r.timerDuration }
      else r) }

/-- `addUsedLetter(id, letter)`: read the room, append the letter to its
`usedLetters` array, write it back. -/
def addUsedLetter (db : DB) (id : Nat) (letter : String) : DB :=
  { db with rooms := db.rooms.map (fun r =>
      if r.id = id then { r with usedLetters := r.usedLetters ++ [letter] } else r) }

/-- `getPlayer(id)`. -/
def getPlayer (db : DB) (id : Nat) : Option Player :=
  db.players.find? (fun p => decide (p.id = id))

/-- `getPlayers(roomId)`. -/
def getPlayers (db : DB) (roomId : Nat) : List Player :=
  db.players.filter (fun p => decide (p.roomId = roomId))

/-- `updatePlayerScore(id, points)`: read current score, write
`score + points`.  (The source throws when the player row is missing; a
missing row here leaves the store unchanged, and every theorem below uses
states in which the row exists.) -/
def updatePlayerScore (db : DB) (id : Nat) (points : Nat) : DB :=
  { db with players := db.players.map (fun p =>
      if p.id = id then { p with score := p.score + points } else p) }

/-- Largest round id in use; `freshRoundId` models the serial primary key
handed out by the next insert. -/
def freshRoundId (db : DB) : Nat :=
  (db.rounds.map Round.id).foldr max 0 + 1

/-- `createRound(roomId, letter)`: insert a new round with status
"active" and `startedAt` the current clock value. -/
def createRound (db : DB) (roomId : Nat) (letter : String) (now : Nat) : DB :=
  { db with rounds := db.rounds ++
      [{ id := freshRoundId db, roomId := roomId, letter := letter,
         status := "active", firstSubmissionAt := none,
         startedAt := now, endedAt := none }] }

/-- Pick of `orderBy(desc(startedAt)).limit(1)`: the row with the largest
`startedAt` (first row wins ties, matching an arbitrary SQL tie order). -/
def latestRound : List Round → Option Round
  | [] => none
  | r :: rs => some (rs.foldl (fun a b => if b.startedAt > a.startedAt then b else a) r)

/-- `getCurrentRound(roomId)`: the latest round with status "active", or
failing that the latest round of the room regardless of status. -/
def getCurrentRound (db : DB) (roomId : Nat) : Option Round :=
  match latestRound (db.rounds.filter (fun r =>
      decide (r.roomId = roomId ∧ r.status = "active"))) with
  | some r => some r
  | none => latestRound (db.rounds.filter (fun r => decide (r.roomId = roomId)))

/-- Guard for `completeRound`: does a round with this id exist (the source
throws, and `finishRoundLogic` catches and aborts, when it does not). -/
def roundExists (db : DB) (id : Nat) : Bool :=
  db.rounds.any (fun r => decide (r.id = id))

/-- `completeRound(id)`: set status "completed" and stamp `endedAt`. -/
def completeRound (db : DB) (id : Nat) (now : Nat) : DB :=
  { db with rounds := db.rounds.map (fun r =>
      if r.id = id then { r with status := "completed", endedAt := some now } else r) }

/-- `markFirstSubmission(id)`: stamp `firstSubmissionAt`. -/
def markFirstSubmission (db : DB) (id : Nat) (now : Nat) : DB :=
  { db with rounds := db.rounds.map (fun r =>
      if r.id = id then { r with firstSubmissionAt := some now } else r) }

/-- `getAnswers(roundId)`. -/
def getAnswers (db : DB) (roundId : Nat) : List Answer :=
  db.answers.filter (fun a => decide (a.roundId = roundId))

/-- Largest answer id in use, modelling the serial primary key. -/
def freshAnswerId (db : DB) : Nat :=
  (db.answers.map Answer.id).foldr max 0 + 1

/-- `submitAnswers(roundId, playerId, submissions)`: delete the player's
previous rows for this round, then insert one row per category whose word
is non-blank after trimming (the `if (word.trim())` guard), storing the
trimmed word with validity pending and 0 points. -/
def submitAnswers (db : DB) (roundId playerId : Nat)
    (submissions : List (String × String)) : DB :=
  let remaining := db.answers.filter (fun a =>
    decide (¬ (a.roundId = roundId ∧ a.playerId = playerId)))
  let base := freshAnswerId db
  let inserted := (submissions.filter (fun cw => decide (strTrim cw.2 ≠ ""))).enum.map
    (fun cwi =>
      { id := base + cwi.1, roundId := roundId, playerId := playerId,
        category := cwi.2.1, word := strTrim cwi.2.2, isValid := none,
        points := 0, validationReason := none, communityRejected := false : Answer })
  { db with answers := remaining ++ inserted }

/-- `updateAnswerValidation(id, isValid, points, reason)`. -/
def updateAnswerValidation (db : DB) (id : Nat)
    (isValid : Bool) (points : Nat) (reason : String) : DB :=
  { db with answers := db.answers.map (fun a =>
      if a.id = id then
        { a with isValid := some isValid, points := points,
                 validationReason := some reason }
      else a) }

/-- Largest vote id in use, modelling the serial primary key. -/
def freshVoteId (db : DB) : Nat :=
  (db.answerVotes.map AnswerVote.id).foldr max 0 + 1

/-- `upsertAnswerVote(answerId, playerId, accepted)`: if a vote by this
player on this answer exists, overwrite its `accepted` flag (update by
the existing row's id); otherwise insert a fresh vote row. -/
def upsertAnswerVote (db : DB) (answerId playerId : Nat) (accepted : Bool) : DB :=
  match (db.answerVotes.filter (fun v =>
      decide (v.answerId = answerId ∧ v.playerId = playerId))) with
  | [] =>
    { db with answerVotes := db.answerVotes ++
        [{ id := freshVoteId db, answerId := answerId,
           playerId := playerId, accepted := accepted }] }
  | e :: _ =>
    { db with answerVotes := db.answerVotes.map (fun v =>
        if v.id = e.id then { v with accepted := accepted } else v) }

/-- `setCommunityRejected(id, rejected)`. -/
def setCommunityRejected (db : DB) (id : Nat) (rejected : Bool) : DB :=
  { db with answers := db.answers.map (fun a =>
      if a.id = id then { a with communityRejected := rejected } else a) }

/-! ## Round lifecycle (`finishRoundLogic`, `startNewRound` in
server/routes.ts) -/

/-- Server state: the store plus the queue of asynchronous validation
jobs scheduled by `setTimeout(() => validateRound(roundId, round.letter))`
inside `finishRoundLogic` (each entry records the roundId and letter the
deferred call will receive). -/
structure ServerState where
  db : DB
  pendingValidations : List (Nat × String)
  deriving Repr, DecidableEq

/-- `finishRoundLogic(roomId, roundId)`: look up the room and the room's
current round; if either is missing or the current round is already
"completed", return without change (success no-op, not an error).
Otherwise mark the round with id `roundId` completed (aborting if that id
is unknown, where the source's `completeRound` throws and the catch
returns), schedule the asynchronous validation of `roundId` with the
current round's letter, and finish the room when its round budget is
exhausted. -/
def finishRoundLogic (s : ServerState) (now roomId roundId : Nat) : ServerState :=
  match getRoomById s.db roomId, getCurrentRound s.db roomId with
  | some room, some round =>
    if round.status = "completed" then s
    else if roundExists s.db roundId then
      let s1 : ServerState :=
        { db := completeRound s.db roundId now,
          pendingValidations := s.pendingValidations ++ [(roundId, round.letter)] }
      if room.totalRounds ≤ room.roundNumber then
        { s1 with db := updateRoomStatus s1.db room.id "finished" }
      else s1
    else s
  | _, _ => s

/-- The letter pool `"ABCDEFGHIJKLMNOPRSTUWZ".split("")`. -/
def alphabet : List String :=
  "ABCDEFGHIJKLMNOPRSTUWZ".toList.map (fun c => String.mk [c])

/-- `startNewRound(roomId)`: filter the alphabet by the room's
`usedLetters`; if nothing remains finish the room, otherwise draw the
letter at a random index (`pick` models `Math.floor(Math.random() *
available.length)`, reduced modulo the pool size to stay in range),
record it as used, bump the round counter and insert the new active
round. -/
def startNewRound (db : DB) (roomId : Nat) (pick now : Nat) : DB :=
  match getRoomById db roomId with
  | none => db
  | some room =>
    let available := alphabet.filter (fun l => decide (l ∉ room.usedLetters))
    if h : available.length = 0 then
      updateRoomStatus db roomId "finished"
    else
      let letter := available.get ⟨pick % available.length, Nat.mod_lt _ (Nat.pos_of_ne_zero h)⟩
      let db1 := addUsedLetter db roomId letter
      let db2 := updateRoomRound db1 roomId (room.roundNumber + 1)
      createRound db2 roomId letter now

/-- The `nextRound` route handler: requires the room to exist and its
status to differ from "finished", then delegates to `startNewRound`; the
Bool reports whether the 200 branch was taken. -/
def nextRoundHandler (db : DB) (code : String) (pick now : Nat) : DB × Bool :=
  match getRoom db code with
  | some room =>
    if room.status ≠ "finished" then (startNewRound db room.id pick now, true)
    else (db, false)
  | none => (db, false)

/-- The `start` route handler: reset the round counter to 0 (which also
forces status "playing" in the storage layer) and start the first round. -/
def startHandler (db : DB) (code : String) (pick now : Nat) : DB × Bool :=
  match getRoom db code with
  | some room => (startNewRound (updateRoomRound db room.id 0) room.id pick now, true)
  | none => (db, false)

/-! ## Validation pipeline (`validateRound`, `applyFallbackValidation`) -/

/-- One verdict of the external judge: the parsed
`{ isValid, reason }` value. -/
structure Verdict where
  isValid : Bool
  reason : String
  deriving Repr, DecidableEq

/-- Outcome of the external judge call, as the code's processing of it
discriminates the cases: the `generateContent`/`response.text()` chain
throws; the response text contains no `{...}` span (the regex
`/\x7b[\s\S]*\x7d/` finds nothing, so `validationResults` becomes the
empty object); the matched span fails `JSON.parse` (which throws); or
parsing succeeds with a map from `"category:word"` keys to verdicts. -/
inductive JudgeOutcome where
  | callFailed
  | noJsonObject
  | badJson
  | parsed (verdicts : List (String × Verdict))
  deriving Repr, DecidableEq

/-- The `"category:word"` key (word lower-cased) used both in the judge
prompt and when reading verdicts back. -/
def judgeKey (a : Answer) : String :=
  a.category ++ ":" ++ strLower a.word

/-- The `answersByCategory` record: for each category, the lower-cased
words of this round's answers in that category, in submission order. -/
def answersByCategory (ansList : List Answer) (cat : String) : List String :=
  (ansList.filter (fun a => decide (a.category = cat))).map (fun a => strLower a.word)

/-- Verdict + points + reason computed for one answer by
`applyFallbackValidation`: lower-case and trim the word, check it starts
with the lower-cased letter, count how many submissions in the category
equal it, then award 5 (duplicate) or 10 (unique) when the
starts-with-letter and non-empty checks pass and 0 otherwise. -/
def fallbackVerdict (byCat : String → List String) (letter : String)
    (a : Answer) : Bool × Nat × String :=
  let wordLower := strTrim (strLower a.word)
  let letters := strLower letter
  let startsWithCorrectLetter := strStartsWith wordLower letters
  let count := ((byCat a.category).filter (fun w => decide (w = wordLower))).length
  if startsWithCorrectLetter && decide (strLength wordLower > 0) then
    (true, if count > 1 then 5 else 10, "Fallback validation")
  else
    (false, 0, if startsWithCorrectLetter = false then "Invalid (wrong letter)" else "Invalid (empty)")

/-- Verdict + points + reason computed for one answer in the judge-result
branch of `validateRound`: read the verdict at this answer's key
(defaulting to invalid / "AI error" when the key is absent), and score a
valid answer 5 or 10 by the same duplicate count (here without trimming). -/
def judgeVerdict (byCat : String → List String) (verdicts : List (String × Verdict))
    (a : Answer) : Bool × Nat × String :=
  let res := ((verdicts.find? (fun kv => decide (kv.1 = judgeKey a))).map Prod.snd).getD
    ⟨false, "AI error"⟩
  let count := ((byCat a.category).filter (fun w => decide (w = strLower a.word))).length
  let points := if res.isValid then (if count > 1 then 5 else 10) else 0
  (res.isValid, points, res.reason)

/-- One iteration of the scoring loops: persist the verdict on the answer
row and, when points were awarded, add them to the owning player's score. -/
def scoreStep (verdictOf : Answer → Bool × Nat × String) (db : DB) (a : Answer) : DB :=
  let v := verdictOf a
  let db1 := updateAnswerValidation db a.id v.1 v.2.1 v.2.2
  if v.2.1 > 0 then updatePlayerScore db1 a.playerId v.2.1 else db1

/-- `applyFallbackValidation(answers, answersByCategory, letter)`: score
every answer of the batch by the fallback rule, in order. -/
def applyFallbackValidation (db : DB) (ansList : List Answer)
    (byCat : String → List String) (letter : String) : DB :=
  ansList.foldl (scoreStep (fallbackVerdict byCat letter)) db

/-- The `// Apply scores` loop of the judge branch of `validateRound`. -/
def applyJudgeResults (db : DB) (ansList : List Answer)
    (byCat : String → List String) (verdicts : List (String × Verdict)) : DB :=
  ansList.foldl (scoreStep (judgeVerdict byCat verdicts)) db

/-- `validateRound(roundId, letter)`: abort when the round id is unknown;
otherwise score the round's answers.  With the judge configured, a thrown
judge call or a `JSON.parse` failure falls back to
`applyFallbackValidation` for the whole batch; a response with no JSON
object yields an empty verdict map fed to the judge-branch loop; a parsed
map is applied directly.  Without the judge the fallback runs
unconditionally. -/
def validateRound (db : DB) (geminiConfigured : Bool) (judge : JudgeOutcome)
    (roundId : Nat) (letter : String) : DB :=
  if roundExists db roundId then
    let ansList := getAnswers db roundId
    let byCat := answersByCategory ansList
    if geminiConfigured then
      match judge with
      | .callFailed => applyFallbackValidation db ansList byCat letter
      | .badJson => applyFallbackValidation db ansList byCat letter
      | .noJsonObject => applyJudgeResults db ansList byCat []
      | .parsed verdicts => applyJudgeResults db ansList byCat verdicts
    else
      applyFallbackValidation db ansList byCat letter
  else db

/-- The list of `"category:word"` keys the current `validateRound` embeds
in the judge prompt: one entry per answer row of the round, in row order
(`answers.map((ans) => category:word.toLowerCase())`). -/
def judgeRequestKeys (db : DB) (roundId : Nat) : List String :=
  (getAnswers db roundId).map judgeKey

/-- The deduplicated key list built by the legacy `validateRound` variant
(server/static.ts): walk the answers, keeping each
`"category:word"` key only on first sight (`uniqueKeys` set guard). -/
def legacyJudgeRequestKeys (db : DB) (roundId : Nat) : List String :=
  (getAnswers db roundId).foldl
    (fun acc a => if judgeKey a ∈ acc then acc else acc ++ [judgeKey a]) []

/-! ## Submit handler and voting -/

/-- Distinct player ids having at least one answer row in the round
(the handler's `new Set(roundAnswers.map((a) => a.playerId))`), here as
the underlying list whose membership is what the `Set` provides. -/
def submittedPlayerIds (db : DB) (roundId : Nat) : List Nat :=
  (getAnswers db roundId).map Answer.playerId

/-- The handler's `playersInRoom.every(p => submittedPlayerIds.has(p.id))`. -/
def allSubmitted (db : DB) (roomId roundId : Nat) : Bool :=
  (getPlayers db roomId).all (fun p => decide (p.id ∈ submittedPlayerIds db roundId))

/-- Reject-vote tally for one answer, as the client's `getVoteStats`
accumulates it from the vote rows. -/
def rejectCount (votes : List AnswerVote) (answerId : Nat) : Nat :=
  (votes.filter (fun v => decide (v.answerId = answerId ∧ v.accepted = false))).length

/-- `isAnswerRejected(answer)`: the persisted `communityRejected` flag,
or a live reject tally strictly above half the room's player count
(`stats.reject > players.length / 2`, evaluated over the rationals as JS
number division does). -/
def isAnswerRejected (a : Answer) (votes : List AnswerVote) (playerCount : Nat) : Bool :=
  a.communityRejected || decide ((rejectCount votes a.id : ℚ) > (playerCount : ℚ) / 2)

/-! ## Settings handlers -/

/-- The current `updateCategories` route handler (server/routes.ts): any
existing room is updated, with no check of the room status; the Nat is
the HTTP status code of the response. -/
def updateCategoriesHandler (db : DB) (code : String) (categories : List String) :
    DB × Nat :=
  match getRoom db code with
  | none => (db, 404)
  | some room => (updateRoomCategories db room.id categories, 200)

/-- The current `updateSettings` route handler: any existing room is
updated, with no check of the room status. -/
def updateSettingsHandler (db : DB) (code : String)
    (totalRounds : Option Nat) (timerDuration : Option (Option Nat)) : DB × Nat :=
  match getRoom db code with
  | none => (db, 404)
  | some room => (updateRoomSettings db room.id totalRounds timerDuration, 200)

/-- The legacy `updateCategories` handler (server/static.ts): rejects
with 400 when the room status is not "waiting". -/
def legacyUpdateCategoriesHandler (db : DB) (code : String)
    (categories : List String) : DB × Nat :=
  match getRoom db code with
  | none => (db, 404)
  | some room =>
    if room.status ≠ "waiting" then (db, 400)
    else (updateRoomCategories db room.id categories, 200)



/-! ## Derived observations used by the theorems -/

/-- Lookup of an answer row by id. -/
def findAnswer (db : DB) (id : Nat) : Option Answer :=
  db.answers.find? (fun a => decide (a.id = id))

/-- Lookup of a player row by id, projected to the score. -/
def playerScore (db : DB) (id : Nat) : Option Nat :=
  (db.players.find? (fun p => decide (p.id = id))).map Player.score

/-- The row produced by persisting a (validity, points, reason) verdict
on an answer. -/
def applyVerdict (a : Answer) (v : Bool × Nat × String) : Answer :=
  { a with isValid := some v.1, points := v.2.1, validationReason := some v.2.2 }

/-- How many of the round's answers share this answer's (category,
lower-cased word) pair. -/
def pairCount (ansList : List Answer) (a : Answer) : Nat :=
  (ansList.filter (fun b =>
    decide (b.category = a.category ∧ strLower b.word = strLower a.word))).length

/-- The (answerId, playerId) pair identifying one player's vote on one
answer. -/
def voteKey (v : AnswerVote) : Nat × Nat := (v.answerId, v.playerId)

/-- The persisted vote of `playerId` on `answerId`, projected to the
accepted flag. -/
def voteLookup (db : DB) (answerId playerId : Nat) : Option Bool :=
  (db.answerVotes.find? (fun v =>
    decide (v.answerId = answerId ∧ v.playerId = playerId))).map AnswerVote.accepted

/-- Active rounds of a room: the quantity the at-most-one-active-round
invariant bounds. -/
def activeRounds (db : DB) (roomId : Nat) : List Round :=
  db.rounds.filter (fun r => decide (r.roomId = roomId ∧ r.status = "active"))

/-! ## Room-creation operations (used to build reachable states) -/

/-- Largest room id in use, modelling the serial primary key. -/
def freshRoomId (db : DB) : Nat :=
  (db.rooms.map Room.id).foldr max 0 + 1

/-- `createRoom(...)`: insert a room with status "waiting", round 0 and
no used letters. -/
def createRoom (db : DB) (code : String) (totalRounds : Nat)
    (categories : List String) (timerDuration : Option Nat) : DB :=
  { db with rooms := db.rooms ++
      [{ id := freshRoomId db, code := code, status := "waiting",
         roundNumber := 0, totalRounds := totalRounds,
         timerDuration := timerDuration, categories := categories,
         usedLetters := [] }] }

/-- Largest player id in use, modelling the serial primary key. -/
def freshPlayerId (db : DB) : Nat :=
  (db.players.map Player.id).foldr max 0 + 1

/-- `addPlayer(roomId, name, isHost)`: insert a player with score 0. -/
def addPlayer (db : DB) (roomId : Nat) (name : String) (isHost : Bool) : DB :=
  { db with players := db.players ++
      [{ id := freshPlayerId db, roomId := roomId, name := name,
         score := 0, isHost := isHost }] }

/-! ## Concrete fixture

A 4-player room whose round 1 (letter "B") has completed with the
submissions of the worked scoring example: two players wrote "Berlin",
one "Boston", one "Paris". -/

/-- Answer row `i` of the fixture: player `pid` submitted `w` for the
category "miasto" of round 1, validity still pending. -/
def exAns (i pid : Nat) (w : String) : Answer :=
  { id := i, roundId := 1, playerId := pid, category := "miasto", word := w,
    isValid := none, points := 0, validationReason := none, communityRejected := false }

/-- Player row `i` of the fixture, score 0. -/
def exPlayer (i : Nat) : Player :=
  { id := i, roomId := 1, name := "p", score := 0, isHost := false }

/-- The fixture store: one playing room, four players, one completed
round with the four pending answers. -/
def exDB : DB :=
  { rooms := [{ id := 1, code := "AB", status := "playing", roundNumber := 1,
                totalRounds := 5, timerDuration := some 10,
                categories := ["miasto"], usedLetters := ["B"] }],
    players := [exPlayer 1, exPlayer 2, exPlayer 3, exPlayer 4],
    rounds := [{ id := 1, roomId := 1, letter := "B", status := "completed",
                 firstSubmissionAt := some 1, startedAt := 0, endedAt := some 2 }],
    answers := [exAns 1 1 "Berlin", exAns 2 2 "Berlin", exAns 3 3 "Boston", exAns 4 4 "Paris"],
    answerVotes := [] }

/-- The fixture store with round 1 still active instead of completed. -/
def exActiveDB : DB :=
  { exDB with rounds := [{ id := 1, roomId := 1, letter := "B", status := "active",
                           firstSubmissionAt := some 1, startedAt := 0, endedAt := none }] }

/-- A reject (or accept) vote on answer 1 by player `pid`. -/
def exVote (i pid : Nat) (acc : Bool) : AnswerVote :=
  { id := i, answerId := 1, playerId := pid, accepted := acc }

/-- Three reject votes on answer 1 (players 2, 3, 4). -/
def exVotes3 : List AnswerVote := [exVote 1 2 false, exVote 2 3 false, exVote 3 4 false]

/-- Two reject votes and one accept vote on answer 1. -/
def exVotes2 : List AnswerVote := [exVote 1 2 false, exVote 2 3 false, exVote 3 4 true]

/-- The empty store. -/
def emptyDB : DB :=
  { rooms := [], players := [], rounds := [], answers := [], answerVotes := [] }

/-- A reachable state built purely from the route operations: create a
room, add a second player, start the game (round 1 becomes active), then
call `nextRound` while round 1 is still active. -/
def exNextRoundState : DB :=
  let db1 := createRoom emptyDB "AB" 5 ["miasto"] (some 10)
  let db2 := addPlayer (addPlayer db1 1 "a" true) 1 "b" false
  let db3 := (startHandler db2 "AB" 0 1).1
  (nextRoundHandler db3 "AB" 0 2).1

/-! ## Generic lookup lemmas -/

/-- In a list whose keys are pairwise distinct, the by-key lookup of a
member returns exactly that member. -/
theorem find?_key_unique {α β : Type} [DecidableEq β] (key : α → β) :
    ∀ (l : List α) (a : α), a ∈ l → (l.map key).Nodup →
      l.find? (fun x => decide (key x = key a)) = some a := by
  intro l
  induction l with
  | nil => intro a h; cases h
  | cons x xs ih =>
    intro a hmem hnodup
    rcases List.mem_cons.mp hmem with rfl | hmem2
    · exact List.find?_cons_of_pos _ (by simp)
    · rw [List.map_cons] at hnodup
      have hpair := List.nodup_cons.mp hnodup
      have hne : key x ≠ key a := by
        intro h
        exact hpair.1 (h ▸ List.mem_map_of_mem key hmem2)
      rw [List.find?_cons_of_neg _ (by simp [hne])]
      exact ih a hmem2 hpair.2

/-- `find?` returns the head of the filtered list. -/
theorem find?_eq_head?_filter {α : Type} (p : α → Bool) (l : List α) :
    l.find? p = (l.filter p).head? := by
  induction l with
  | nil => rfl
  | cons x xs ih =>
    by_cases h : p x
    · rw [List.find?_cons_of_pos _ h, List.filter_cons_of_pos h]; rfl
    · rw [List.find?_cons_of_neg _ h, List.filter_cons_of_neg h, ih]

/-! ## Voting (claim C6) -/

/-- Strict-majority over the rationals coincides with the doubled
natural-number comparison. -/
theorem rat_half_lt_iff (r n : Nat) : ((n : ℚ) / 2 < (r : ℚ)) ↔ n < 2 * r := by
  rw [div_lt_iff₀ (by norm_num : (0 : ℚ) < 2)]
  have h2 : ((r : ℚ) * 2) = ((2 * r : Nat) : ℚ) := by push_cast; ring
  rw [h2]
  exact Nat.cast_lt

/-- The rejection test, restated over the naturals. -/
theorem isAnswerRejected_iff (a : Answer) (votes : List AnswerVote) (n : Nat) :
    isAnswerRejected a votes n =
      (a.communityRejected || decide (n < 2 * rejectCount votes a.id)) := by
  unfold isAnswerRejected
  congr 1
  rw [decide_eq_decide, gt_iff_lt]
  exact rat_half_lt_iff _ _

/-- Upserting keeps the (answerId, playerId) keys pairwise distinct. -/
theorem upsert_keys_nodup (db : DB) (answerId playerId : Nat) (acc : Bool)
    (hkeys : (db.answerVotes.map voteKey).Nodup) :
    ((upsertAnswerVote db answerId playerId acc).answerVotes.map voteKey).Nodup := by
  unfold upsertAnswerVote
  cases hfe : db.answerVotes.filter (fun v =>
      decide (v.answerId = answerId ∧ v.playerId = playerId)) with
  | nil =>
    simp only []
    rw [List.map_append, List.nodup_append]
    refine ⟨hkeys, by simp, ?_⟩
    intro k hk hk2
    simp only [List.map_cons, List.map_nil, List.mem_cons, List.not_mem_nil, or_false] at hk2
    rcases List.mem_map.mp hk with ⟨v, hv, hkv⟩
    have hp : ¬ (v.answerId = answerId ∧ v.playerId = playerId) := by
      have := List.filter_eq_nil_iff.mp hfe v hv
      simpa using this
    apply hp
    rw [← hkv] at hk2
    simpa [voteKey] using hk2
  | cons e es =>
    simp only []
    rw [List.map_map]
    have hmap : db.answerVotes.map (voteKey ∘ (fun v =>
        if v.id = e.id then { v with accepted := acc } else v)) =
        db.answerVotes.map voteKey := by
      apply List.map_congr_left
      intro v _
      by_cases h : v.id = e.id <;> simp [voteKey, h]
    rw [hmap]
    exact hkeys

/-- Upserting stores the supplied accepted flag as the player's vote on
the answer: the latest vote wins. -/
theorem upsert_lookup (db : DB) (answerId playerId : Nat) (acc : Bool) :
    voteLookup (upsertAnswerVote db answerId playerId acc) answerId playerId = some acc := by
  unfold upsertAnswerVote voteLookup
  cases hfe : db.answerVotes.filter (fun v =>
      decide (v.answerId = answerId ∧ v.playerId = playerId)) with
  | nil =>
    simp only []
    rw [List.find?_append]
    have hnone : db.answerVotes.find? (fun v =>
        decide (v.answerId = answerId ∧ v.playerId = playerId)) = none := by
      rw [find?_eq_head?_filter, hfe]; rfl
    rw [hnone]
    simp
  | cons e es =>
    simp only []
    have hpf : (fun v : AnswerVote => decide (v.answerId = answerId ∧ v.playerId = playerId)) ∘
        (fun v => if v.id = e.id then { v with accepted := acc } else v) =
        (fun v : AnswerVote => decide (v.answerId = answerId ∧ v.playerId = playerId)) := by
      funext v
      by_cases h : v.id = e.id <;> simp [h]
    rw [List.find?_map, hpf]
    have hfind : db.answerVotes.find? (fun v =>
        decide (v.answerId = answerId ∧ v.playerId = playerId)) = some e := by
      rw [find?_eq_head?_filter, hfe]; rfl
    rw [hfind]
    simp

/-- C6: an answer is community-rejected exactly when its persisted
`communityRejected` flag is set or its reject-vote tally strictly exceeds
half the room's player count (in a 4-player room 3 reject votes reject,
exactly 2 do not), and `upsertAnswerVote` keeps at most one vote per
(answer, player) pair, the stored flag being the one of the latest vote. -/
theorem vote_majority_and_upsert
    (a : Answer) (votes : List AnswerVote) (n : Nat)
    (db : DB) (answerId playerId : Nat) (acc : Bool)
    (hkeys : (db.answerVotes.map voteKey).Nodup) :
    (isAnswerRejected a votes n =
      (a.communityRejected || decide (n < 2 * rejectCount votes a.id)))
    ∧ ((upsertAnswerVote db answerId playerId acc).answerVotes.map voteKey).Nodup
    ∧ voteLookup (upsertAnswerVote db answerId playerId acc) answerId playerId = some acc
    ∧ isAnswerRejected (exAns 1 1 "Berlin") exVotes3 4 = true
    ∧ isAnswerRejected (exAns 1 1 "Berlin") exVotes2 4 = false := by
  refine ⟨isAnswerRejected_iff a votes n,
    upsert_keys_nodup db answerId playerId acc hkeys,
    upsert_lookup db answerId playerId acc, ?_, ?_⟩
  · rw [isAnswerRejected_iff]; decide
  · rw [isAnswerRejected_iff]; decide

/-- Closed instance of `vote_majority_and_upsert`: the fixture store has
distinct vote keys, and every conclusion holds there for a vote by
player 5 on answer 1. -/
theorem vote_majority_and_upsert_witness :
    (isAnswerRejected (exAns 1 1 "Berlin") exVotes3 4 =
      (false || decide (4 < 2 * rejectCount exVotes3 1)))
    ∧ ((upsertAnswerVote exDB 1 5 true).answerVotes.map voteKey).Nodup
    ∧ voteLookup (upsertAnswerVote exDB 1 5 true) 1 5 = some true
    ∧ isAnswerRejected (exAns 1 1 "Berlin") exVotes3 4 = true
    ∧ isAnswerRejected (exAns 1 1 "Berlin") exVotes2 4 = false :=
  vote_majority_and_upsert (exAns 1 1 "Berlin") exVotes3 4 exDB 1 5 true (by decide)

/-! ## Judge request construction (claim C8) -/

/-- The first-sight dedup loop produces no duplicate keys. -/
theorem dedupFold_nodup (l : List Answer) :
    ∀ acc : List String, acc.Nodup →
      (l.foldl (fun acc a => if judgeKey a ∈ acc then acc else acc ++ [judgeKey a]) acc).Nodup := by
  induction l with
  | nil => intro acc h; exact h
  | cons a l ih =>
    intro acc h
    simp only [List.foldl_cons]
    by_cases hm : judgeKey a ∈ acc
    · rw [if_pos hm]; exact ih acc h
    · rw [if_neg hm]
      apply ih
      rw [List.nodup_append]
      refine ⟨h, by simp, ?_⟩
      intro x hx hx2
      simp only [List.mem_cons, List.not_mem_nil, or_false] at hx2
      subst hx2
      exact hm hx

/-- The dedup loop keeps exactly the keys of the processed answers. -/
theorem dedupFold_mem (l : List Answer) :
    ∀ (acc : List String) (k : String),
      (k ∈ l.foldl (fun acc a => if judgeKey a ∈ acc then acc else acc ++ [judgeKey a]) acc) ↔
        (k ∈ acc ∨ k ∈ l.map judgeKey) := by
  induction l with
  | nil => intro acc k; simp
  | cons a l ih =>
    intro acc k
    simp only [List.foldl_cons, List.map_cons, List.mem_cons]
    by_cases hm : judgeKey a ∈ acc
    · rw [if_pos hm, ih]
      constructor
      · rintro (h | h)
        · exact Or.inl h
        · exact Or.inr (Or.inr h)
      · rintro (h | rfl | h)
        · exact Or.inl h
        · exact Or.inl hm
        · exact Or.inr h
    · rw [if_neg hm, ih]
      simp only [List.mem_append, List.mem_cons, List.not_mem_nil, or_false]
      tauto

/-- C8 (amended): only the legacy validation pipeline deduplicates the
judge request: its key list has no duplicate entry and ranges over
exactly the keys of the round's answers, while the current pipeline sends
one key per answer row, duplicates included (see the counterexample). -/
theorem judge_request_keys_spec (db : DB) (roundId : Nat) :
    (legacyJudgeRequestKeys db roundId).Nodup
    ∧ (∀ k, k ∈ legacyJudgeRequestKeys db roundId ↔ k ∈ judgeRequestKeys db roundId) := by
  constructor
  · exact dedupFold_nodup _ [] (by simp)
  · intro k
    unfold legacyJudgeRequestKeys judgeRequestKeys
    rw [dedupFold_mem]
    simp

/-- C8 counterexample: with two players both submitting "Berlin" for the
same category, the current `validateRound` embeds the same
`"category:word"` pair twice in the judge request, so the batch sent to
the judge is not deduplicated. -/
theorem judge_request_duplicate_counterexample :
    judgeRequestKeys exDB 1 =
      ["miasto:berlin", "miasto:berlin", "miasto:boston", "miasto:paris"]
    ∧ ¬ (judgeRequestKeys exDB 1).Nodup := by
  constructor
  · decide
  · decide

/-! ## Fallback scoring rule (claim C5) -/

/-- The duplicate count read off `answersByCategory` equals the number of
answers sharing the (category, lower-cased word) pair, once the answer's
lower-cased word carries no surrounding whitespace. -/
theorem count_byCategory_eq_pairCount (ansList : List Answer) (a : Answer) :
    ((answersByCategory ansList a.category).filter
      (fun w => decide (w = strLower a.word))).length = pairCount ansList a := by
  unfold answersByCategory pairCount
  rw [← List.countP_eq_length_filter, ← List.countP_eq_length_filter]
  rw [List.countP_map, List.countP_filter]
  apply List.countP_congr
  intro b _
  by_cases h1 : b.category = a.category <;>
    by_cases h2 : strLower b.word = strLower a.word <;>
      simp [h1, h2, Function.comp]

/-- C5: the fallback rule awards an answer 10 points when it is valid
(non-empty and starting with the round's letter, case-insensitively) and
its (category, lower-cased word) pair is unique in the round, 5 points
when the pair occurs more than once, and 0 points when invalid. -/
theorem fallback_scoring (ansList : List Answer) (letter : String) (a : Answer)
    (htrim : strTrim (strLower a.word) = strLower a.word) :
    (fallbackVerdict (answersByCategory ansList) letter a).2.1 =
      if strStartsWith (strLower a.word) (strLower letter) &&
          decide (strLength (strLower a.word) > 0) then
        (if 1 < pairCount ansList a then 5 else 10)
      else 0 := by
  unfold fallbackVerdict
  simp only [htrim, count_byCategory_eq_pairCount]
  by_cases hc : strStartsWith (strLower a.word) (strLower letter) &&
      decide (strLength (strLower a.word) > 0)
  · rw [if_pos hc, if_pos hc]
  · rw [if_neg hc, if_neg hc]

/-- Closed instance of `fallback_scoring` on the worked example: letter
"B", submissions "Berlin", "Berlin", "Boston", "Paris" score 5, 5, 10, 0,
both per the rule and as persisted by the fallback validation run. -/
theorem fallback_scoring_witness :
    (validateRound exDB false .callFailed 1 "B").answers.map Answer.points = [5, 5, 10, 0]
    ∧ (fallbackVerdict (answersByCategory (getAnswers exDB 1)) "B" (exAns 1 1 "Berlin")).2.1 = 5
    ∧ (fallbackVerdict (answersByCategory (getAnswers exDB 1)) "B" (exAns 3 3 "Boston")).2.1 = 10
    ∧ (fallbackVerdict (answersByCategory (getAnswers exDB 1)) "B" (exAns 4 4 "Paris")).2.1 = 0 := by
  refine ⟨by decide, ?_, ?_, ?_⟩
  · exact (fallback_scoring (getAnswers exDB 1) "B" (exAns 1 1 "Berlin") (by decide)).trans
      (by decide)
  · exact (fallback_scoring (getAnswers exDB 1) "B" (exAns 3 3 "Boston") (by decide)).trans
      (by decide)
  · exact (fallback_scoring (getAnswers exDB 1) "B" (exAns 4 4 "Paris") (by decide)).trans
      (by decide)

/-! ## Scoring-loop lemmas (claims C2, C3) -/

/-- Awarding points touches no answer row. -/
theorem findAnswer_updatePlayerScore (db : DB) (pid pts i : Nat) :
    findAnswer (updatePlayerScore db pid pts) i = findAnswer db i := rfl

/-- Persisting a verdict on one answer leaves lookups of other ids
unchanged. -/
theorem findAnswer_update_other (db : DB) (i j : Nat) (v : Bool) (pts : Nat) (r : String)
    (h : i ≠ j) :
    findAnswer (updateAnswerValidation db i v pts r) j = findAnswer db j := by
  unfold findAnswer updateAnswerValidation
  rw [List.find?_map]
  have hpf : ((fun a : Answer => decide (a.id = j)) ∘ (fun a =>
      if a.id = i then
        { a with isValid := some v, points := pts, validationReason := some r }
      else a)) = (fun a : Answer => decide (a.id = j)) := by
    funext a; by_cases h2 : a.id = i <;> simp [h2]
  rw [hpf]
  cases hf : db.answers.find? (fun a => decide (a.id = j)) with
  | none => rfl
  | some a =>
    have hj : a.id = j := by simpa using List.find?_some hf
    have hne : ¬ (a.id = i) := by rw [hj]; exact fun hh => h hh.symm
    simp [hne]

/-- Persisting a verdict on an answer rewrites exactly that row. -/
theorem findAnswer_update_self (db : DB) (a : Answer) (v : Bool) (pts : Nat) (r : String)
    (h : findAnswer db a.id = some a) :
    findAnswer (updateAnswerValidation db a.id v pts r) a.id =
      some (applyVerdict a (v, pts, r)) := by
  unfold findAnswer updateAnswerValidation
  unfold findAnswer at h
  rw [List.find?_map]
  have hpf : ((fun x : Answer => decide (x.id = a.id)) ∘ (fun x =>
      if x.id = a.id then
        { x with isValid := some v, points := pts, validationReason := some r }
      else x)) = (fun x : Answer => decide (x.id = a.id)) := by
    funext x; by_cases h2 : x.id = a.id <;> simp [h2]
  rw [hpf, h]
  simp [applyVerdict]

/-- One scoring-loop step leaves other answers untouched. -/
theorem findAnswer_scoreStep_other (vf : Answer → Bool × Nat × String)
    (db : DB) (b : Answer) (j : Nat) (h : b.id ≠ j) :
    findAnswer (scoreStep vf db b) j = findAnswer db j := by
  simp only [scoreStep]
  by_cases hp : (vf b).2.1 > 0
  · rw [if_pos hp, findAnswer_updatePlayerScore]
    exact findAnswer_update_other db b.id j _ _ _ h
  · rw [if_neg hp]
    exact findAnswer_update_other db b.id j _ _ _ h

/-- One scoring-loop step persists exactly the computed verdict on its
answer. -/
theorem findAnswer_scoreStep_self (vf : Answer → Bool × Nat × String)
    (db : DB) (b : Answer) (h : findAnswer db b.id = some b) :
    findAnswer (scoreStep vf db b) b.id = some (applyVerdict b (vf b)) := by
  simp only [scoreStep]
  by_cases hp : (vf b).2.1 > 0
  · rw [if_pos hp, findAnswer_updatePlayerScore]
    rw [findAnswer_update_self db b _ _ _ h]
  · rw [if_neg hp]
    rw [findAnswer_update_self db b _ _ _ h]

/-- The scoring loop leaves ids outside the processed batch untouched. -/
theorem foldl_scoreStep_untouched (vf : Answer → Bool × Nat × String) :
    ∀ (l : List Answer) (db : DB) (j : Nat), (∀ b ∈ l, b.id ≠ j) →
      findAnswer (l.foldl (scoreStep vf) db) j = findAnswer db j := by
  intro l
  induction l with
  | nil => intro db j _; rfl
  | cons b l ih =>
    intro db j h
    rw [List.foldl_cons, ih _ _ (fun c hc => h c (List.mem_cons_of_mem _ hc))]
    exact findAnswer_scoreStep_other vf db b j (h b (List.mem_cons_self _ _))

/-- After the scoring loop over a batch with pairwise distinct ids, the
stored row of each processed answer carries exactly its computed
verdict. -/
theorem foldl_scoreStep_found (vf : Answer → Bool × Nat × String) :
    ∀ (l : List Answer) (db : DB) (a : Answer), a ∈ l → (l.map Answer.id).Nodup →
      findAnswer db a.id = some a →
      findAnswer (l.foldl (scoreStep vf) db) a.id = some (applyVerdict a (vf a)) := by
  intro l
  induction l with
  | nil => intro db a h; cases h
  | cons b l ih =>
    intro db a hmem hnodup hstart
    rw [List.map_cons] at hnodup
    have hpair := List.nodup_cons.mp hnodup
    rcases List.mem_cons.mp hmem with rfl | hmem2
    · rw [List.foldl_cons]
      rw [foldl_scoreStep_untouched vf l _ a.id
        (fun c hc hceq => hpair.1 (hceq ▸ List.mem_map_of_mem Answer.id hc))]
      exact findAnswer_scoreStep_self vf db a hstart
    · rw [List.foldl_cons]
      apply ih _ a hmem2 hpair.2
      rw [findAnswer_scoreStep_other vf db b a.id
        (fun hid => hpair.1 (hid ▸ List.mem_map_of_mem Answer.id hmem2))]
      exact hstart

/-! ## Fallback uniformity (claim C2) -/

/-- C2 (amended): for every answer of a completed round, when the judge
call throws or its extracted JSON fails to parse — and likewise when the
judge is not configured — the persisted verdict is exactly the fallback
verdict, uniformly over the batch; when the judge responds with no JSON
object at all, every answer is instead uniformly marked invalid with
reason "AI error" (the judge-branch default), not scored by the fallback
rule.  In no case does one round mix judge-derived and fallback-derived
verdicts. -/
theorem fallback_uniform (db : DB) (cfg : Bool) (judge : JudgeOutcome)
    (roundId : Nat) (letter : String) (a : Answer)
    (hround : roundExists db roundId = true)
    (hnodup : (db.answers.map Answer.id).Nodup)
    (hmem : a ∈ db.answers) (hrid : a.roundId = roundId) :
    ((cfg = false ∨ judge = JudgeOutcome.callFailed ∨ judge = JudgeOutcome.badJson) →
      findAnswer (validateRound db cfg judge roundId letter) a.id =
        some (applyVerdict a
          (fallbackVerdict (answersByCategory (getAnswers db roundId)) letter a)))
    ∧ (findAnswer (validateRound db true JudgeOutcome.noJsonObject roundId letter) a.id =
        some (applyVerdict a (false, 0, "AI error"))) := by
  have hmem2 : a ∈ getAnswers db roundId := by
    unfold getAnswers
    rw [List.mem_filter]
    exact ⟨hmem, by simpa using hrid⟩
  have hnodup2 : ((getAnswers db roundId).map Answer.id).Nodup := by
    apply List.Nodup.sublist _ hnodup
    exact List.Sublist.map Answer.id (List.filter_sublist db.answers)
  have hstart : findAnswer db a.id = some a :=
    find?_key_unique Answer.id db.answers a hmem hnodup
  constructor
  · intro hjudge
    have hgoal : ∀ d : DB,
        d = applyFallbackValidation db (getAnswers db roundId)
          (answersByCategory (getAnswers db roundId)) letter →
        findAnswer d a.id = some (applyVerdict a
          (fallbackVerdict (answersByCategory (getAnswers db roundId)) letter a)) := by
      intro d hd
      subst hd
      exact foldl_scoreStep_found _ _ db a hmem2 hnodup2 hstart
    rcases hjudge with rfl | rfl | rfl
    · apply hgoal
      simp only [validateRound, hround, if_true, Bool.false_eq_true, if_false]
    · cases cfg
      · apply hgoal
        simp only [validateRound, hround, if_true, Bool.false_eq_true, if_false]
      · apply hgoal
        simp only [validateRound, hround, if_true]
    · cases cfg
      · apply hgoal
        simp only [validateRound, hround, if_true, Bool.false_eq_true, if_false]
      · apply hgoal
        simp only [validateRound, hround, if_true]
  · have hv : ∀ b : Answer,
        judgeVerdict (answersByCategory (getAnswers db roundId)) [] b =
          (false, 0, "AI error") := by
      intro b; simp [judgeVerdict]
    have h1 : findAnswer (validateRound db true JudgeOutcome.noJsonObject roundId letter) a.id =
        some (applyVerdict a (judgeVerdict (answersByCategory (getAnswers db roundId)) [] a)) := by
      simp only [validateRound, hround, if_true]
      exact foldl_scoreStep_found _ _ db a hmem2 hnodup2 hstart
    rw [h1, hv a]

/-- C2 counterexample: the judge "returns unparsable output" containing
no JSON object, yet the unique valid submission "Boston" (which the
fallback rule would score 10) is persisted as invalid with 0 points and
reason "AI error" — the batch is not scored by the fallback rule. -/
theorem fallback_not_applied_counterexample :
    (fallbackVerdict (answersByCategory (getAnswers exDB 1)) "B" (exAns 3 3 "Boston")).2.1 = 10
    ∧ (findAnswer (validateRound exDB true JudgeOutcome.noJsonObject 1 "B") 3).map
        Answer.points = some 0
    ∧ (findAnswer (validateRound exDB true JudgeOutcome.noJsonObject 1 "B") 3).map
        Answer.validationReason = some (some "AI error") := by
  refine ⟨by decide, by decide, by decide⟩

/-- Closed instance of `fallback_uniform` on the fixture round. -/
theorem fallback_uniform_witness :
    findAnswer (validateRound exDB false JudgeOutcome.callFailed 1 "B") 1 =
      some (applyVerdict (exAns 1 1 "Berlin")
        (fallbackVerdict (answersByCategory (getAnswers exDB 1)) "B" (exAns 1 1 "Berlin")))
    ∧ findAnswer (validateRound exDB true JudgeOutcome.noJsonObject 1 "B") 1 =
        some (applyVerdict (exAns 1 1 "Berlin") (false, 0, "AI error")) := by
  have h := fallback_uniform exDB false JudgeOutcome.callFailed 1 "B" (exAns 1 1 "Berlin")
    (by decide) (by decide) (by decide) (by decide)
  exact ⟨h.1 (Or.inl rfl), h.2⟩

/-! ## Re-running validation double-awards (claim C3) -/

/-- C3 failing input: `validateRound` holds no write-once guard — running
it a second time over the already-validated fixture round awards every
positive point delta again, doubling all cumulative scores from
[5, 5, 10, 0] to [10, 10, 20, 0]. -/
theorem validateRound_rerun_double_awards :
    (validateRound exDB false JudgeOutcome.callFailed 1 "B").players.map Player.score
      = [5, 5, 10, 0]
    ∧ (validateRound (validateRound exDB false JudgeOutcome.callFailed 1 "B")
        false JudgeOutcome.callFailed 1 "B").players.map Player.score
      = [10, 10, 20, 0] := by
  refine ⟨by decide, by decide⟩

/-! ## Settings handlers (claim C7) -/

/-- C7 counterexample: the fixture room is "playing" (not "waiting"), yet
both current handlers answer 200 and mutate the room's category list and
settings. -/
theorem updateCategories_no_status_guard_counterexample :
    exDB.rooms.map Room.status = ["playing"]
    ∧ (updateCategoriesHandler exDB "AB" ["x"]).2 = 200
    ∧ (updateCategoriesHandler exDB "AB" ["x"]).1.rooms.map Room.categories = [["x"]]
    ∧ (updateSettingsHandler exDB "AB" (some 7) none).2 = 200
    ∧ (updateSettingsHandler exDB "AB" (some 7) none).1.rooms.map Room.totalRounds = [7] := by
  refine ⟨by decide, by decide, by decide, by decide, by decide⟩

/-- C7 (amended): the current `updateCategories` and `updateSettings`
handlers succeed with 200 and perform the update for any existing room,
regardless of its status; only the legacy `updateCategories` handler
enforces the waiting-only rule, answering 400 and leaving the store
unchanged when the room is not waiting. -/
theorem settings_handlers_guards (db : DB) (code : String) (cats : List String)
    (tr : Option Nat) (td : Option (Option Nat)) (room : Room)
    (hroom : getRoom db code = some room) :
    (updateCategoriesHandler db code cats = (updateRoomCategories db room.id cats, 200))
    ∧ (updateSettingsHandler db code tr td = (updateRoomSettings db room.id tr td, 200))
    ∧ (room.status ≠ "waiting" →
        legacyUpdateCategoriesHandler db code cats = (db, 400)) := by
  refine ⟨?_, ?_, ?_⟩
  · simp only [updateCategoriesHandler, hroom]
  · simp only [updateSettingsHandler, hroom]
  · intro h
    simp only [legacyUpdateCategoriesHandler, hroom]
    rw [if_pos h]

/-- Closed instance of `settings_handlers_guards` on the "playing"
fixture room. -/
theorem settings_handlers_guards_witness :
    (updateCategoriesHandler exDB "AB" ["x"] = (updateRoomCategories exDB 1 ["x"], 200))
    ∧ (updateSettingsHandler exDB "AB" (some 7) none =
        (updateRoomSettings exDB 1 (some 7) none, 200))
    ∧ (legacyUpdateCategoriesHandler exDB "AB" ["x"] = (exDB, 400)) := by
  have h := settings_handlers_guards exDB "AB" ["x"] (some 7) none
    { id := 1, code := "AB", status := "playing", roundNumber := 1, totalRounds := 5,
      timerDuration := some 10, categories := ["miasto"], usedLetters := ["B"] } (by decide)
  exact ⟨h.1, h.2.1, h.2.2 (by decide)⟩

/-! ## Active-round uniqueness (claim C4) -/

/-- C4 counterexample: starting from the empty store and using only the
route operations (create room, add player, start game, next round), a
`nextRound` request issued while round 1 is still active leaves the room
with two active rounds. -/
theorem two_active_rounds_counterexample :
    (activeRounds exNextRoundState 1).map Round.status = ["active", "active"]
    ∧ (activeRounds exNextRoundState 1).length = 2 := by
  refine ⟨by decide, by decide⟩

/-- The rounds table after `startNewRound`: unchanged, or extended by one
fresh active round of this room. -/
theorem startNewRound_rounds (db : DB) (roomId pick now : Nat) :
    (startNewRound db roomId pick now).rounds = db.rounds ∨
    ∃ letter, (startNewRound db roomId pick now).rounds = db.rounds ++
      [{ id := freshRoundId db, roomId := roomId, letter := letter,
         status := "active", firstSubmissionAt := none,
         startedAt := now, endedAt := none }] := by
  cases hroom : getRoomById db roomId with
  | none =>
    simp only [startNewRound, hroom]
    exact Or.inl trivial
  | some room =>
    simp only [startNewRound, hroom]
    by_cases h0 : (alphabet.filter (fun l => decide (l ∉ room.usedLetters))).length = 0
    · rw [dif_pos h0]
      exact Or.inl rfl
    · rw [dif_neg h0]
      exact Or.inr ⟨_, rfl⟩

/-- C4 (amended): `startNewRound` checks only for a room that exists and
letters that remain — never for an existing active round (the
counterexample shows a second active round being created).  The
at-most-one-active-round invariant is preserved exactly when round
creation is invoked while the room has no active round: then the
resulting state has at most one. -/
theorem startNewRound_single_active (db : DB) (roomId pick now : Nat)
    (h : ∀ r ∈ db.rounds, r.roomId = roomId → r.status ≠ "active") :
    (activeRounds (startNewRound db roomId pick now) roomId).length ≤ 1 := by
  have hempty : db.rounds.filter (fun r =>
      decide (r.roomId = roomId ∧ r.status = "active")) = [] := by
    rw [List.filter_eq_nil_iff]
    intro r hr hdec
    rw [decide_eq_true_iff] at hdec
    exact h r hr hdec.1 hdec.2
  rcases startNewRound_rounds db roomId pick now with heq | ⟨letter, heq⟩
  · unfold activeRounds
    rw [heq, hempty]
    simp
  · unfold activeRounds
    rw [heq, List.filter_append, hempty]
    simp only [List.nil_append]
    exact le_trans (List.length_filter_le _ _) (by simp)

/-- Closed instance of `startNewRound_single_active`: the fixture store
has no active round (round 1 completed), and starting a new round yields
at most one. -/
theorem startNewRound_single_active_witness :
    (activeRounds (startNewRound exDB 1 0 5) 1).length ≤ 1 :=
  startNewRound_single_active exDB 1 0 5 (by decide)

/-! ## Used-letter uniqueness (claim C9) -/

/-- Appending a letter that the (unique) target room has not yet used
preserves duplicate-freedom of every room's `usedLetters`. -/
theorem addUsedLetter_nodup_preserved (db : DB) (roomId : Nat) (letter : String)
    (room : Room)
    (hids : (db.rooms.map Room.id).Nodup)
    (hroom : getRoomById db roomId = some room)
    (h : ∀ r ∈ db.rooms, r.usedLetters.Nodup)
    (hnew : letter ∉ room.usedLetters) :
    ∀ r ∈ (addUsedLetter db roomId letter).rooms, r.usedLetters.Nodup := by
  intro r hr
  rcases List.mem_map.mp hr with ⟨r0, hr0, rfl⟩
  by_cases hc : r0.id = roomId
  · rw [if_pos hc]
    have hfind : db.rooms.find? (fun x => decide (x.id = r0.id)) = some r0 :=
      find?_key_unique Room.id db.rooms r0 hr0 hids
    rw [hc] at hfind
    unfold getRoomById at hroom
    have hr0room : room = r0 := Option.some.inj (hroom.symm.trans hfind)
    subst hr0room
    rw [List.nodup_append]
    refine ⟨h room hr0, by simp, ?_⟩
    intro y hy hy2
    simp only [List.mem_cons, List.not_mem_nil, or_false] at hy2
    subst hy2
    exact hnew hy
  · rw [if_neg hc]
    exact h r0 hr0

/-- C9: `startNewRound` preserves duplicate-freedom of every room's
`usedLetters`: the drawn letter comes from the alphabet filtered by the
letters already used, and is appended exactly once. -/
theorem startNewRound_usedLetters_nodup (db : DB) (roomId pick now : Nat)
    (hids : (db.rooms.map Room.id).Nodup)
    (h : ∀ r ∈ db.rooms, r.usedLetters.Nodup) :
    ∀ r ∈ (startNewRound db roomId pick now).rooms, r.usedLetters.Nodup := by
  cases hroom : getRoomById db roomId with
  | none =>
    simp only [startNewRound, hroom]
    exact h
  | some room =>
    simp only [startNewRound, hroom]
    by_cases h0 : (alphabet.filter (fun l => decide (l ∉ room.usedLetters))).length = 0
    · rw [dif_pos h0]
      intro r hr
      rcases List.mem_map.mp hr with ⟨r0, hr0, rfl⟩
      by_cases hc : r0.id = roomId
      · rw [if_pos hc]
        exact h r0 hr0
      · rw [if_neg hc]
        exact h r0 hr0
    · rw [dif_neg h0]
      have hget : ∀ (i : Nat)
          (hi : i < (alphabet.filter (fun l => decide (l ∉ room.usedLetters))).length),
          (alphabet.filter (fun l => decide (l ∉ room.usedLetters))).get ⟨i, hi⟩ ∉
            room.usedLetters := by
        intro i hi
        have hmem := List.get_mem (alphabet.filter (fun l => decide (l ∉ room.usedLetters))) i hi
        have := (List.mem_filter.mp hmem).2
        simpa using this
      intro r hr
      rcases List.mem_map.mp hr with ⟨x, hx, rfl⟩
      have hkeep : ∀ y : Room,
          (if y.id = roomId then
            { y with roundNumber := room.roundNumber + 1, status := "playing" }
          else y).usedLetters = y.usedLetters := by
        intro y; by_cases hc : y.id = roomId
        · rw [if_pos hc]
        · rw [if_neg hc]
      rw [hkeep x]
      exact addUsedLetter_nodup_preserved db roomId _ room hids hroom h (hget _ _) x hx

/-- Closed instance of `startNewRound_usedLetters_nodup` on the fixture
store: after drawing the letter "A" (pick 0 on top of used letter "B"),
the fixture room's letter history ["B", "A"] is duplicate-free. -/
theorem startNewRound_usedLetters_nodup_witness :
    ({ id := 1, code := "AB", status := "playing", roundNumber := 2, totalRounds := 5,
       timerDuration := some 10, categories := ["miasto"],
       usedLetters := ["B", "A"] } : Room).usedLetters.Nodup :=
  startNewRound_usedLetters_nodup exDB 1 0 5 (by decide) (by decide)
    { id := 1, code := "AB", status := "playing", roundNumber := 2, totalRounds := 5,
      timerDuration := some 10, categories := ["miasto"], usedLetters := ["B", "A"] }
    (by decide)

/-! ## Blank submissions (claim C10) -/

/-- C10: a submission whose every word is blank after trimming deletes
the player's previous rows for the round and inserts nothing: afterwards
the round's answers are exactly the other players' rows, the submitter is
not counted among the players who submitted, and the all-players-submitted
check cannot hold. -/
theorem submitAnswers_blank (db : DB) (roundId playerId : Nat)
    (subs : List (String × String)) (roomId : Nat) (p : Player)
    (hblank : ∀ cw ∈ subs, strTrim cw.2 = "")
    (hp : p ∈ getPlayers db roomId) (hpid : p.id = playerId) :
    (getAnswers (submitAnswers db roundId playerId subs) roundId =
      (getAnswers db roundId).filter (fun a => decide (¬ a.playerId = playerId)))
    ∧ playerId ∉ submittedPlayerIds (submitAnswers db roundId playerId subs) roundId
    ∧ allSubmitted (submitAnswers db roundId playerId subs) roomId roundId = false := by
  have hins : subs.filter (fun cw => decide (strTrim cw.2 ≠ "")) = [] := by
    rw [List.filter_eq_nil_iff]
    intro cw hcw
    simp [hblank cw hcw]
  have hanswers : (submitAnswers db roundId playerId subs).answers =
      db.answers.filter (fun a =>
        decide (¬ (a.roundId = roundId ∧ a.playerId = playerId))) := by
    simp only [submitAnswers, hins]
    simp [List.enum]
  have h1 : getAnswers (submitAnswers db roundId playerId subs) roundId =
      (getAnswers db roundId).filter (fun a => decide (¬ a.playerId = playerId)) := by
    unfold getAnswers
    rw [hanswers, List.filter_filter, List.filter_filter]
    apply List.filter_congr
    intro a _
    by_cases hr : a.roundId = roundId <;> by_cases hq : a.playerId = playerId <;>
      simp [hr, hq]
  have h2 : playerId ∉ submittedPlayerIds (submitAnswers db roundId playerId subs) roundId := by
    unfold submittedPlayerIds
    rw [h1]
    intro hmem
    rcases List.mem_map.mp hmem with ⟨a, ha, haid⟩
    have := (List.mem_filter.mp ha).2
    rw [decide_eq_true_iff] at this
    exact this haid
  refine ⟨h1, h2, ?_⟩
  have hplayers : getPlayers (submitAnswers db roundId playerId subs) roomId =
      getPlayers db roomId := rfl
  rw [Bool.eq_false_iff]
  intro hall
  unfold allSubmitted at hall
  rw [hplayers, List.all_eq_true] at hall
  have := hall p hp
  rw [decide_eq_true_iff, hpid] at this
  exact h2 this

/-- Closed instance of `submitAnswers_blank`: player 1 resubmits only a
whitespace word, erasing their previous "Berlin" row; they no longer
count as submitted and the all-submitted check fails. -/
theorem submitAnswers_blank_witness :
    (getAnswers (submitAnswers exDB 1 1 [("miasto", "  ")]) 1 =
      (getAnswers exDB 1).filter (fun a => decide (¬ a.playerId = 1)))
    ∧ (1 : Nat) ∉ submittedPlayerIds (submitAnswers exDB 1 1 [("miasto", "  ")]) 1
    ∧ allSubmitted (submitAnswers exDB 1 1 [("miasto", "  ")]) 1 1 = false :=
  submitAnswers_blank exDB 1 1 [("miasto", "  ")] 1 (exPlayer 1)
    (by decide) (by decide) (by decide)

/-! ## Round-completion idempotence (claim C1) -/

/-- The running maximum of the latest-round fold is the seed or a list
member. -/
theorem foldl_later_mem : ∀ (rs : List Round) (acc : Round),
    rs.foldl (fun a b => if b.startedAt > a.startedAt then b else a) acc = acc ∨
    rs.foldl (fun a b => if b.startedAt > a.startedAt then b else a) acc ∈ rs := by
  intro rs
  induction rs with
  | nil => intro acc; exact Or.inl rfl
  | cons x xs ih =>
    intro acc
    rw [List.foldl_cons]
    rcases ih (if x.startedAt > acc.startedAt then x else acc) with heq | hmem
    · rw [heq]
      by_cases hx : x.startedAt > acc.startedAt
      · rw [if_pos hx]; exact Or.inr (List.mem_cons_self _ _)
      · rw [if_neg hx]; exact Or.inl rfl
    · exact Or.inr (List.mem_cons_of_mem _ hmem)

/-- The latest-round pick is a member of its list. -/
theorem latestRound_mem (l : List Round) (r : Round) (h : latestRound l = some r) :
    r ∈ l := by
  cases l with
  | nil => cases h
  | cons x xs =>
    unfold latestRound at h
    have h2 := Option.some.inj h
    rcases foldl_later_mem xs x with heq | hmem
    · rw [heq] at h2
      rw [← h2]
      exact List.mem_cons_self _ _
    · rw [← h2]
      exact List.mem_cons_of_mem _ hmem

/-- The current round, when it exists, belongs to the rounds table and to
the queried room. -/
theorem getCurrentRound_spec (db : DB) (roomId : Nat) (r : Round)
    (h : getCurrentRound db roomId = some r) :
    r ∈ db.rounds ∧ r.roomId = roomId := by
  unfold getCurrentRound at h
  cases hl : latestRound (db.rounds.filter (fun x =>
      decide (x.roomId = roomId ∧ x.status = "active"))) with
  | some r1 =>
    rw [hl] at h
    have hr1 : r1 = r := Option.some.inj h
    subst hr1
    have hmem := List.mem_filter.mp (latestRound_mem _ _ hl)
    refine ⟨hmem.1, ?_⟩
    have := hmem.2
    rw [decide_eq_true_iff] at this
    exact this.1
  | none =>
    rw [hl] at h
    have hmem := List.mem_filter.mp (latestRound_mem _ _ h)
    refine ⟨hmem.1, ?_⟩
    have := hmem.2
    rwa [decide_eq_true_iff] at this

/-- `getCurrentRound` reads only the rounds table. -/
theorem getCurrentRound_congr (db1 db2 : DB) (roomId : Nat)
    (h : db1.rounds = db2.rounds) :
    getCurrentRound db1 roomId = getCurrentRound db2 roomId := by
  unfold getCurrentRound
  rw [h]

/-- `finishRoundLogic` is a success no-op when the room's current round
is already completed (and when the room is missing). -/
theorem finishRoundLogic_noop (s : ServerState) (now roomId roundId : Nat) (r : Round)
    (hr : getCurrentRound s.db roomId = some r) (hc : r.status = "completed") :
    finishRoundLogic s now roomId roundId = s := by
  cases hroom : getRoomById s.db roomId with
  | none => simp only [finishRoundLogic, hroom]
  | some room =>
    simp only [finishRoundLogic, hroom, hr]
    rw [if_pos hc]

/-- After completing the round that every active round of the room
coincides with, the room's current round reads back as completed. -/
theorem getCurrentRound_completeRound (db : DB) (roomId roundId now : Nat) (rd : Round)
    (hmem : rd ∈ db.rounds) (hrm : rd.roomId = roomId)
    (hstat : ∀ r ∈ db.rounds, r.roomId = roomId →
      r.status = "active" ∨ r.status = "completed")
    (hact : ∀ r ∈ db.rounds, r.roomId = roomId → r.status = "active" → r.id = roundId) :
    ∃ r2, getCurrentRound (completeRound db roundId now) roomId = some r2 ∧
      r2.status = "completed" := by
  have hf_roomId : ∀ r : Round,
      ((if r.id = roundId then { r with status := "completed", endedAt := some now }
        else r)).roomId = r.roomId := by
    intro r; by_cases hc : r.id = roundId
    · rw [if_pos hc]
    · rw [if_neg hc]
  have hf_status : ∀ r ∈ db.rounds, r.roomId = roomId →
      ((if r.id = roundId then { r with status := "completed", endedAt := some now }
        else r)).status = "completed" := by
    intro r hr hrm2
    by_cases hc : r.id = roundId
    · rw [if_pos hc]
    · rw [if_neg hc]
      rcases hstat r hr hrm2 with ha | hcomp
      · exact absurd (hact r hr hrm2 ha) hc
      · exact hcomp
  have hfilterA : (completeRound db roundId now).rounds.filter (fun r =>
      decide (r.roomId = roomId ∧ r.status = "active")) = [] := by
    rw [List.filter_eq_nil_iff]
    intro x hx
    rcases List.mem_map.mp hx with ⟨r, hr, rfl⟩
    simp only [decide_eq_true_eq]
    rintro ⟨ha, hb⟩
    rw [hf_roomId r] at ha
    rw [hf_status r hr ha] at hb
    exact absurd hb (by decide)
  have hmemfilter : (if rd.id = roundId then
        { rd with status := "completed", endedAt := some now } else rd) ∈
      (completeRound db roundId now).rounds.filter (fun r => decide (r.roomId = roomId)) := by
    rw [List.mem_filter]
    constructor
    · exact List.mem_map_of_mem _ hmem
    · rw [decide_eq_true_iff, hf_roomId rd]
      exact hrm
  unfold getCurrentRound
  rw [hfilterA]
  cases hl : latestRound ((completeRound db roundId now).rounds.filter (fun r =>
      decide (r.roomId = roomId))) with
  | none =>
    rw [latestRound.eq_def] at hl
    cases hflt : (completeRound db roundId now).rounds.filter (fun r =>
        decide (r.roomId = roomId)) with
    | nil =>
      rw [hflt] at hmemfilter
      cases hmemfilter
    | cons y ys =>
      rw [hflt] at hl
      cases hl
  | some r2 =>
    refine ⟨r2, by simp [latestRound], ?_⟩
    have hmem2 := List.mem_filter.mp (latestRound_mem _ _ hl)
    rcases List.mem_map.mp hmem2.1 with ⟨r, hr, rfl⟩
    have hroom2 : r.roomId = roomId := by
      have := hmem2.2
      rw [decide_eq_true_iff, hf_roomId r] at this
      exact this
    exact hf_status r hr hroom2

/-- C1: round completion is idempotent.  In a state where the rounds of
the room carry only the statuses "active" and "completed" and any active
round is the one being completed (the at-most-one-active invariant),
running `finishRoundLogic` a second time — at any later clock value — is
a success no-op: the status moves from active to completed exactly once,
and the second invocation changes neither the store nor the pending
validation queue. -/
theorem finishRoundLogic_idempotent (s : ServerState) (now1 now2 roomId roundId : Nat)
    (hstat : ∀ r ∈ s.db.rounds, r.roomId = roomId →
      r.status = "active" ∨ r.status = "completed")
    (hact : ∀ r ∈ s.db.rounds, r.roomId = roomId → r.status = "active" → r.id = roundId) :
    finishRoundLogic (finishRoundLogic s now1 roomId roundId) now2 roomId roundId =
      finishRoundLogic s now1 roomId roundId := by
  cases hroom : getRoomById s.db roomId with
  | none =>
    have hno : ∀ n, finishRoundLogic s n roomId roundId = s := by
      intro n; simp only [finishRoundLogic, hroom]
    rw [hno now1, hno now2]
  | some room =>
    cases hcur : getCurrentRound s.db roomId with
    | none =>
      have hno : ∀ n, finishRoundLogic s n roomId roundId = s := by
        intro n; simp only [finishRoundLogic, hroom, hcur]
      rw [hno now1, hno now2]
    | some rd =>
      by_cases hcomp : rd.status = "completed"
      · have hno : ∀ n, finishRoundLogic s n roomId roundId = s := by
          intro n
          exact finishRoundLogic_noop s n roomId roundId rd hcur hcomp
        rw [hno now1, hno now2]
      · by_cases hex : roundExists s.db roundId = true
        · have hrd := getCurrentRound_spec s.db roomId rd hcur
          have hrounds : (finishRoundLogic s now1 roomId roundId).db.rounds =
              (completeRound s.db roundId now1).rounds := by
            simp only [finishRoundLogic, hroom, hcur]
            rw [if_neg hcomp, if_pos hex]
            by_cases hend : room.totalRounds ≤ room.roundNumber
            · rw [if_pos hend]
              rfl
            · rw [if_neg hend]
          obtain ⟨r2, hr2, hr2c⟩ :=
            getCurrentRound_completeRound s.db roomId roundId now1 rd hrd.1 hrd.2 hstat hact
          have hcur2 : getCurrentRound (finishRoundLogic s now1 roomId roundId).db roomId =
              some r2 := by
            rw [getCurrentRound_congr _ _ _ hrounds]
            exact hr2
          exact finishRoundLogic_noop _ now2 roomId roundId r2 hcur2 hr2c
        · have hexf : roundExists s.db roundId = false := by
            rwa [Bool.not_eq_true] at hex
          have hno : ∀ n, finishRoundLogic s n roomId roundId = s := by
            intro n
            simp only [finishRoundLogic, hroom, hcur]
            rw [if_neg hcomp, if_neg (by rw [hexf]; exact Bool.false_ne_true)]
          rw [hno now1, hno now2]

/-- Closed instance of `finishRoundLogic_idempotent`: finishing the
fixture room's (single, active) round 1 twice at clock values 2 and 3
equals finishing it once. -/
theorem finishRoundLogic_idempotent_witness :
    finishRoundLogic
        (finishRoundLogic { db := exActiveDB, pendingValidations := [] } 2 1 1) 3 1 1 =
      finishRoundLogic { db := exActiveDB, pendingValidations := [] } 2 1 1 :=
  finishRoundLogic_idempotent { db := exActiveDB, pendingValidations := [] } 2 3 1 1
    (by decide) (by decide)

end PanstwaMiasta
